import Mathlib

/-!
Verification of the spin/payout/history core of the slot-machine simulator
(`app.py`).  The Python source is shallowly embedded: the framework-managed
per-session store (`st.session_state`) becomes an explicit `SessionState`
value threaded through the handlers; the external randomness source
(`random.choice`) becomes an explicit stream of indices supplied as an
argument; the wall clock (`datetime.now().strftime(...)`) becomes an opaque
timestamp-string argument.  Presentation-only effects (image rendering,
audio, sleeps, `st.warning`) mutate no session state in the source and are
dropped.  Python integers are `Int`.  The source's one float expression,
`int(bet * 1.5)`, follows IEEE-754 binary64 semantics; `evaluate_spin`
idealizes it as the exact truncation `Int.tdiv (3 * bet) 2`, and the
faithful binary64 model `int_bet_times_1_5` below is proved to agree with
that idealization exactly when `3 * bet < 2^53`, diverging beyond (it
returns floor + 1 at `bet = 2^52 + 1`, and `none` — Python's
`OverflowError` — at astronomically large bets).
-/

/-- `SYMBOLS` from app.py line 30: the fixed 7-symbol reel alphabet. -/
def SYMBOLS : List String := ["🍒", "🔔", "🍋", "💎", "7️⃣", "🍀", "🍉"]

/-- `PAYOUT_TABLE` from app.py lines 31-39, as the lookup the source performs
with `PAYOUT_TABLE.get(sym, 0)` (line 110): unknown keys yield 0. -/
def PAYOUT_TABLE (sym : String) : Int :=
  if sym = "🍒" then 5
  else if sym = "🔔" then 8
  else if sym = "🍋" then 4
  else if sym = "💎" then 12
  else if sym = "7️⃣" then 50
  else if sym = "🍀" then 10
  else if sym = "🍉" then 6
  else 0

/-- `START_BALANCE` from app.py line 40. -/
def START_BALANCE : Int := 1000

/-- `random.choice(xs)`: the external RNG is modelled by an arbitrary natural
`r`; the uniform choice is the element at index `r % xs.length`.  (The
distributional properties — uniformity, independence — live in the external
`random` module and are outside the embedding.) -/
def random_choice (xs : List String) (r : Nat) : String :=
  xs.getD (r % xs.length) "-"

/-- `spin_once` from app.py lines 104-105: three independent choices from
`SYMBOLS`, consuming three values of the index stream `r`. -/
def spin_once (r : Nat → Nat) : List String :=
  [random_choice SYMBOLS (r 0), random_choice SYMBOLS (r 1), random_choice SYMBOLS (r 2)]

/-- `evaluate_spin` from app.py lines 107-116.  The source indexes
`reels[0]`, `reels[1]`, `reels[2]` of the 3-element outcome list; `getD`
with a dummy default renders that total (every call site passes a 3-list).
The pair-case win `int(bet * 1.5)` is idealized as the exact truncation
`Int.tdiv (3 * bet) 2`; this matches the source's IEEE-754 binary64
computation (modelled faithfully by `int_bet_times_1_5` below) exactly when
`3 * bet < 2^53`, and differs beyond that range. -/
def evaluate_spin (reels : List String) (bet : Int) : Int × String :=
  let r0 := reels.getD 0 "-"
  let r1 := reels.getD 1 "-"
  let r2 := reels.getD 2 "-"
  if r0 = r1 ∧ r1 = r2 then
    let multiplier := PAYOUT_TABLE r0
    let win := bet * multiplier
    (win, "🎉 Three " ++ r0 ++ "! You win " ++ toString win ++ " coins.")
  else if r0 = r1 ∨ r0 = r2 ∨ r1 = r2 then
    let win := Int.tdiv (3 * bet) 2
    (win, "🙂 Two of a kind — you win " ++ toString win ++ " coins.")
  else
    (0, "😞 No match — try again.")

/-- One history entry, the dict inserted at app.py lines 218-225. -/
structure SpinRecord where
  timestamp : String
  reels : String
  bet : Int
  win : Int
  balance_after : Int
  message : String
deriving DecidableEq, Repr

/-- The session-scoped mutable store `st.session_state`, restricted to the
keys the game logic touches (app.py lines 121-127).  The transient
`action_in_progress` guard (lines 230-241, 247, 259) is set and cleared
within a single handler invocation and is observably `false` at every
handler boundary, so it is not carried. -/
structure SessionState where
  balance : Int
  last_reels : List String
  last_bet : Int
  message : String
  history : List SpinRecord
  auto_running : Bool
deriving DecidableEq, Repr

/-- `init_state` from app.py lines 121-128: the defaults installed by
`setdefault` at first interaction. -/
def init_state : SessionState :=
  { balance := START_BALANCE
    last_reels := ["-", "-", "-"]
    last_bet := 0
    message := "Selamat datang! Gunakan koin mainan untuk bermain."
    history := []
    auto_running := false }

/-- `do_spin` from app.py lines 194-225.  `final` is the outcome drawn by
`spin_once` (the animation frames consume RNG but touch no session state),
`now` the formatted wall-clock string.  On `bet_amount > balance` the source
shows a warning and returns with no session-state write. -/
def do_spin (s : SessionState) (bet_amount : Int) (final : List String)
    (now : String) : SessionState :=
  if bet_amount > s.balance then s
  else
    let bal1 := s.balance - bet_amount
    let wm := evaluate_spin final bet_amount
    let win := wm.1
    let msg := wm.2
    let bal2 := if win > 0 then bal1 + win else bal1
    let msg_full := msg ++ " (Taruhan: " ++ toString bet_amount ++
      ") · Saldo sekarang: " ++ toString bal2
    { s with
      last_bet := bet_amount
      balance := bal2
      last_reels := final
      message := msg_full
      history := { timestamp := now
                   reels := String.intercalate " " final
                   bet := bet_amount
                   win := win
                   balance_after := bal2
                   message := msg } :: s.history }

/-- The spin-button handler, app.py lines 233-241: validate `bet ≤ 0` and
`bet > balance` with a warning (no state write), otherwise run `do_spin`. -/
def spin_click (s : SessionState) (bet : Int) (final : List String)
    (now : String) : SessionState :=
  if bet ≤ 0 then s
  else if bet > s.balance then s
  else do_spin s bet final now

/-- The reset-button handler, app.py lines 179-184. -/
def reset_click (s : SessionState) : SessionState :=
  { s with
    balance := START_BALANCE
    history := []
    message := "Saldo direset ke 1000 coins."
    last_reels := ["-", "-", "-"] }

/-- The auto-spin `for` loop body, app.py lines 249-257: `k` iterations
remain of `range(auto_count)`, `i` is the next index into the outcome and
timestamp streams, `done` is `spins_done`.  The loop breaks first on
`balance <= 0`; after a spin `spins_done` increments; the cooperative stop
check reads `auto_running`, modelled by the externally-supplied `stop`
stream observed once per iteration boundary (nothing in the loop body
itself writes it). -/
def auto_loop (bet : Int) (outcomes : Nat → List String) (times : Nat → String)
    (stop : Nat → Bool) : Nat → Nat → SessionState → Nat → SessionState × Nat
  | 0, _, s, done => (s, done)
  | k + 1, i, s, done =>
    if s.balance ≤ 0 then (s, done)
    else
      let s1 := do_spin s bet (outcomes i) (times i)
      if stop i then (s1, done + 1)
      else auto_loop bet outcomes times stop k (i + 1) s1 (done + 1)

/-- One full auto-spin run of requested count `n` (app.py lines 246-260):
the loop starting at stream index 0 with `spins_done = 0`, returning the
final state and the reported `spins_done`. -/
def auto_run (bet : Int) (outcomes : Nat → List String) (times : Nat → String)
    (stop : Nat → Bool) (n : Nat) (s : SessionState) : SessionState × Nat :=
  auto_loop bet outcomes times stop n 0 s 0

/-- `j` consecutive `do_spin` calls with fixed bet, consuming stream indices
`i, i+1, ...`: the reference trajectory of an uninterrupted auto-spin run. -/
def iter_spin (bet : Int) (outcomes : Nat → List String) (times : Nat → String) :
    Nat → Nat → SessionState → SessionState
  | _, 0, s => s
  | i, j + 1, s =>
    iter_spin bet outcomes times (i + 1) j (do_spin s bet (outcomes i) (times i))

/-- A user-visible operation on the session: a spin-button press, an
auto-spin run, or a reset-button press. -/
inductive Op where
  | spin (bet : Int) (final : List String) (now : String)
  | autoSpin (bet : Int) (count : Nat) (outcomes : Nat → List String)
      (times : Nat → String) (stop : Nat → Bool)
  | reset

/-- Effect of one operation on the session state. -/
def applyOp (s : SessionState) : Op → SessionState
  | Op.spin bet final now => spin_click s bet final now
  | Op.autoSpin bet count outcomes times stop =>
    (auto_run bet outcomes times stop count s).1
  | Op.reset => reset_click s

/-- A whole session: the operations applied in order to the fresh state. -/
def runOps (ops : List Op) : SessionState :=
  ops.foldl applyOp init_state

/-- Modelled from the spec: the payout rule "winAmount = floor(bet × 1.5)"
for the two-of-a-kind case, as mathematical floor division. -/
def floor_three_halves (bet : Int) : Int :=
  Int.fdiv (3 * bet) 2

/-- Python's `int.bit_length` for naturals, with a fuel argument for
structural recursion (`n` halvings always suffice as fuel). -/
def bit_len_aux : Nat → Nat → Nat
  | 0, _ => 0
  | fuel + 1, n => if n = 0 then 0 else bit_len_aux fuel (n / 2) + 1

/-- Number of binary digits of `n` (0 for 0). -/
def bit_length (n : Nat) : Nat := bit_len_aux n n

/-- Round the natural `n` to the nearest IEEE-754 binary64 value
(53 significant bits, ties to even), returned exactly as a natural: values
below `2^53` are exact; above, the mantissa is rounded at granularity
`2^(bit_length n - 53)`. -/
def round_to_53_bits (n : Nat) : Nat :=
  if n < 2 ^ 53 then n
  else
    let t := bit_length n - 53
    let q := n / 2 ^ t
    let r := n % 2 ^ t
    let h := 2 ^ (t - 1)
    (if h < r then q + 1 else if r < h then q else if q % 2 = 0 then q else q + 1) * 2 ^ t

/-- Round the half-integer `p / 2` (for `p : Nat`) to the nearest binary64
value, ties to even, returned doubled (so the result divided by 2 is the
float's exact value): `p ≤ 2^53` is exactly representable (mantissa `p`,
exponent −1); above, the mantissa is rounded at granularity
`2^(bit_length p - 53)`. -/
def round_half_to_53 (p : Nat) : Nat :=
  if p ≤ 2 ^ 53 then p
  else
    let t := bit_length p - 53
    let q := p / 2 ^ t
    let r := p % 2 ^ t
    let h := 2 ^ (t - 1)
    (if h < r then q + 1 else if r < h then q else if q % 2 = 0 then q else q + 1) * 2 ^ t

/-- The overflow threshold of binary64: 2^1024, written as a decimal
literal so that concrete evaluation by `decide` stays cheap. -/
def FLOAT_MAX_BOUND : Nat :=
  179769313486231590772930519078902473361797697894230657273430081157732675805500963132708477322407536021120113879871393357658789768814416622492847430639474124377767893424865485276302219601246094119453082952085005768838150682342462881473913110540827237163350510684586298239947245938479716304835356329624224137216

/-- CPython's `float(n)` for a non-negative int `n`: round to nearest
binary64 (ties to even); `none` models the `OverflowError` raised when the
rounded value reaches `2^1024 = FLOAT_MAX_BOUND`. -/
def py_float_of_pos_int (n : Nat) : Option Nat :=
  let v := round_to_53_bits n
  if FLOAT_MAX_BOUND ≤ v then none else some v

/-- The faithful IEEE-754 binary64 semantics of the source's pair-case
payout `int(bet * 1.5)` (app.py line 114) for a non-negative integer bet:
convert `bet` to a double (may raise `OverflowError` — `none`), multiply by
1.5 (the exact product `3 * v1 / 2` rounded to a double, ties to even;
`none` when it overflows to infinity, where `int()` raises), then truncate
toward zero.  `evaluate_spin` above idealizes this value as the exact
truncation `Int.tdiv (3 * bet) 2`; the two agree whenever `3 * bet < 2^53`
and diverge beyond (e.g. at `bet = 2^52 + 1`). -/
def int_bet_times_1_5 (bet : Nat) : Option Nat :=
  match py_float_of_pos_int bet with
  | none => none
  | some v1 =>
    let pr := round_half_to_53 (3 * v1)
    if 2 * FLOAT_MAX_BOUND ≤ pr then none else some (pr / 2)

/-! ### Helper lemmas -/

lemma payout_nonneg (sym : String) : 0 ≤ PAYOUT_TABLE sym := by
  unfold PAYOUT_TABLE
  split_ifs <;> norm_num

lemma evaluate_spin_nonneg (reels : List String) (b : Int) (hb : 0 ≤ b) :
    0 ≤ (evaluate_spin reels b).1 := by
  unfold evaluate_spin
  dsimp only
  split_ifs
  · exact mul_nonneg hb (payout_nonneg _)
  · exact Int.tdiv_nonneg (by omega) (by norm_num)
  · exact le_refl 0

lemma credit_if_pos (x w : Int) (hw : 0 ≤ w) :
    (if w > 0 then x + w else x) = x + w := by
  split <;> omega

lemma do_spin_reject (s : SessionState) (b : Int) (f : List String) (now : String)
    (h : s.balance < b) : do_spin s b f now = s := by
  unfold do_spin
  rw [if_pos h]

lemma do_spin_accept (s : SessionState) (b : Int) (f : List String) (now : String)
    (h : b ≤ s.balance) (hb : 0 ≤ b) :
    do_spin s b f now = { s with
      last_bet := b
      balance := s.balance - b + (evaluate_spin f b).1
      last_reels := f
      message := (evaluate_spin f b).2 ++ " (Taruhan: " ++ toString b ++
        ") · Saldo sekarang: " ++ toString (s.balance - b + (evaluate_spin f b).1)
      history := { timestamp := now
                   reels := String.intercalate " " f
                   bet := b
                   win := (evaluate_spin f b).1
                   balance_after := s.balance - b + (evaluate_spin f b).1
                   message := (evaluate_spin f b).2 } :: s.history } := by
  have hng : ¬ b > s.balance := not_lt.mpr h
  have hw : 0 ≤ (evaluate_spin f b).1 := evaluate_spin_nonneg f b hb
  unfold do_spin
  rw [if_neg hng]
  dsimp only
  rw [credit_if_pos _ _ hw]

lemma do_spin_balance_nonneg (s : SessionState) (b : Int) (f : List String)
    (now : String) (h0 : 0 ≤ s.balance) : 0 ≤ (do_spin s b f now).balance := by
  unfold do_spin
  split_ifs with h
  · exact h0
  · dsimp only
    split_ifs <;> omega

lemma do_spin_balance_lb (s : SessionState) (b : Int) (f : List String)
    (now : String) (hle : b ≤ s.balance) :
    s.balance - b ≤ (do_spin s b f now).balance := by
  unfold do_spin
  split_ifs with h
  · omega
  · dsimp only
    split_ifs <;> omega

lemma do_spin_history_of_accept (s : SessionState) (b : Int) (f : List String)
    (now : String) (h : b ≤ s.balance) :
    (do_spin s b f now).history.length = s.history.length + 1 ∧
    (do_spin s b f now).history.tail = s.history := by
  have hng : ¬ b > s.balance := not_lt.mpr h
  unfold do_spin
  rw [if_neg hng]
  dsimp only
  exact ⟨by simp, rfl⟩

lemma iter_spin_succ (bet : Int) (o : Nat → List String) (t : Nat → String)
    (i j : Nat) (s : SessionState) :
    iter_spin bet o t i (j + 1) s =
      iter_spin bet o t (i + 1) j (do_spin s bet (o i) (t i)) := rfl

lemma auto_loop_succ (bet : Int) (o : Nat → List String) (t : Nat → String)
    (stop : Nat → Bool) (k i : Nat) (s : SessionState) (done : Nat) :
    auto_loop bet o t stop (k + 1) i s done =
      if s.balance ≤ 0 then (s, done)
      else
        let s1 := do_spin s bet (o i) (t i)
        if stop i then (s1, done + 1)
        else auto_loop bet o t stop k (i + 1) s1 (done + 1) := rfl

lemma auto_loop_done_le (bet : Int) (o : Nat → List String) (t : Nat → String)
    (stop : Nat → Bool) :
    ∀ (k i : Nat) (s : SessionState) (done : Nat),
      (auto_loop bet o t stop k i s done).2 ≤ done + k := by
  intro k
  induction k with
  | zero => intro i s done; simp [auto_loop]
  | succ k ih =>
    intro i s done
    rw [auto_loop_succ]
    dsimp only
    split_ifs
    · omega
    · omega
    · have := ih (i + 1) (do_spin s bet (o i) (t i)) (done + 1)
      omega

lemma iter_spin_len (bet : Int) (o : Nat → List String) (t : Nat → String) :
    ∀ (K i : Nat) (s : SessionState),
      (∀ j, j < K → bet ≤ (iter_spin bet o t i j s).balance) →
      (iter_spin bet o t i K s).history.length = s.history.length + K := by
  intro K
  induction K with
  | zero => intro i s _; rfl
  | succ K ih =>
    intro i s hacc
    have h0 : bet ≤ s.balance := hacc 0 (Nat.succ_pos K)
    rw [iter_spin_succ]
    have hlen := (do_spin_history_of_accept s bet (o i) (t i) h0).1
    have := ih (i + 1) (do_spin s bet (o i) (t i)) (fun j hj => by
      have := hacc (j + 1) (Nat.succ_lt_succ hj)
      rwa [iter_spin_succ] at this)
    omega

lemma auto_loop_all_accepted (bet : Int) (o : Nat → List String)
    (t : Nat → String) (hbet : 1 ≤ bet) :
    ∀ (k i : Nat) (s : SessionState) (done : Nat),
      (k : Int) * bet ≤ s.balance →
      (auto_loop bet o t (fun _ => false) k i s done).2 = done + k ∧
      (auto_loop bet o t (fun _ => false) k i s done).1.history.length
        = s.history.length + k := by
  intro k
  induction k with
  | zero => intro i s done _; exact ⟨rfl, rfl⟩
  | succ k ih =>
    intro i s done hbal
    have hkk : ((k : Int) + 1) * bet ≤ s.balance := by push_cast at hbal; linarith
    have hknn : 0 ≤ (k : Int) * bet :=
      mul_nonneg (Int.natCast_nonneg k) (by omega)
    have hle : bet ≤ s.balance := by nlinarith
    have hpos : ¬ s.balance ≤ 0 := by omega
    rw [auto_loop_succ]
    dsimp only
    rw [if_neg hpos]
    simp only [Bool.false_eq_true, if_false]
    have hlb := do_spin_balance_lb s bet (o i) (t i) hle
    have hrec : (k : Int) * bet ≤ (do_spin s bet (o i) (t i)).balance := by
      have : (k : Int) * bet ≤ s.balance - bet := by nlinarith
      omega
    have hih := ih (i + 1) (do_spin s bet (o i) (t i)) (done + 1) hrec
    have hlen := (do_spin_history_of_accept s bet (o i) (t i) hle).1
    exact ⟨by omega, by omega⟩

lemma auto_loop_stops_at (bet : Int) (o : Nat → List String)
    (t : Nat → String) (hbet : 1 ≤ bet) :
    ∀ (k n i : Nat) (s : SessionState) (done : Nat),
      k < n →
      (∀ j, j < k → bet ≤ (iter_spin bet o t i j s).balance) →
      (iter_spin bet o t i k s).balance ≤ 0 →
      auto_loop bet o t (fun _ => false) n i s done
        = (iter_spin bet o t i k s, done + k) := by
  intro k
  induction k with
  | zero =>
    intro n i s done hn _ hz
    have hz' : s.balance ≤ 0 := hz
    obtain ⟨m, rfl⟩ : ∃ m, n = m + 1 := ⟨n - 1, by omega⟩
    rw [auto_loop_succ]
    dsimp only
    rw [if_pos hz']
    rfl
  | succ k ih =>
    intro n i s done hn hacc hz
    have h0 : bet ≤ s.balance := hacc 0 (Nat.succ_pos k)
    have hpos : ¬ s.balance ≤ 0 := by omega
    obtain ⟨m, rfl⟩ : ∃ m, n = m + 1 := ⟨n - 1, by omega⟩
    rw [auto_loop_succ]
    dsimp only
    rw [if_neg hpos]
    simp only [Bool.false_eq_true, if_false]
    have hih := ih m (i + 1) (do_spin s bet (o i) (t i)) (done + 1)
      (by omega)
      (fun j hj => by
        have := hacc (j + 1) (Nat.succ_lt_succ hj)
        rwa [iter_spin_succ] at this)
      (by rw [iter_spin_succ] at hz; exact hz)
    rw [hih, iter_spin_succ]
    have harith : done + 1 + k = done + (k + 1) := by omega
    rw [harith]

lemma auto_loop_reject_all (bet : Int) (o : Nat → List String)
    (t : Nat → String) :
    ∀ (k i : Nat) (s : SessionState) (done : Nat),
      0 < s.balance → s.balance < bet →
      auto_loop bet o t (fun _ => false) k i s done = (s, done + k) := by
  intro k
  induction k with
  | zero => intro i s done _ _; rfl
  | succ k ih =>
    intro i s done hpos hlt
    rw [auto_loop_succ]
    dsimp only
    rw [if_neg (by omega)]
    simp only [Bool.false_eq_true, if_false]
    rw [do_spin_reject s bet (o i) (t i) hlt]
    rw [ih (i + 1) s (done + 1) hpos hlt]
    have harith : done + 1 + k = done + (k + 1) := by omega
    rw [harith]

lemma auto_loop_balance_nonneg (bet : Int) (o : Nat → List String)
    (t : Nat → String) (stop : Nat → Bool) :
    ∀ (k i : Nat) (s : SessionState) (done : Nat),
      0 ≤ s.balance →
      0 ≤ (auto_loop bet o t stop k i s done).1.balance := by
  intro k
  induction k with
  | zero => intro i s done h; exact h
  | succ k ih =>
    intro i s done h
    rw [auto_loop_succ]
    dsimp only
    split_ifs
    · exact h
    · exact do_spin_balance_nonneg s bet (o i) (t i) h
    · exact ih (i + 1) _ (done + 1) (do_spin_balance_nonneg s bet (o i) (t i) h)

lemma spin_click_balance_nonneg (s : SessionState) (bet : Int)
    (f : List String) (now : String) (h : 0 ≤ s.balance) :
    0 ≤ (spin_click s bet f now).balance := by
  unfold spin_click
  split_ifs
  · exact h
  · exact h
  · exact do_spin_balance_nonneg s bet f now h

lemma foldl_balance_nonneg :
    ∀ (ops : List Op) (s : SessionState), 0 ≤ s.balance →
      0 ≤ (List.foldl applyOp s ops).balance := by
  intro ops
  induction ops with
  | nil => intro s h; exact h
  | cons op rest ih =>
    intro s h
    rw [List.foldl_cons]
    apply ih
    cases op with
    | spin bet final now => exact spin_click_balance_nonneg s bet final now h
    | autoSpin bet count o t stop =>
      exact auto_loop_balance_nonneg bet o t stop count 0 s 0 h
    | reset => norm_num [applyOp, reset_click, START_BALANCE]

/-! ### Evaluation-case lemmas -/

lemma tdiv_three_halves_eq_floor (b : Int) (hb : 0 < b) :
    Int.tdiv (3 * b) 2 = floor_three_halves b := by
  unfold floor_three_halves
  rw [Int.tdiv_eq_ediv (by omega) (by norm_num), Int.fdiv_eq_ediv _ (by norm_num)]

lemma evaluate_spin_triple (r0 r1 r2 : String) (b : Int)
    (h1 : r0 = r1) (h2 : r1 = r2) :
    (evaluate_spin [r0, r1, r2] b).1 = b * PAYOUT_TABLE r0 := by
  subst h1
  subst h2
  simp [evaluate_spin]

lemma evaluate_spin_pair (r0 r1 r2 : String) (b : Int)
    (hp : r0 = r1 ∨ r0 = r2 ∨ r1 = r2) (hnt : ¬(r0 = r1 ∧ r1 = r2)) :
    (evaluate_spin [r0, r1, r2] b).1 = Int.tdiv (3 * b) 2 := by
  unfold evaluate_spin
  dsimp only [List.getD_cons_zero, List.getD_cons_succ]
  rw [if_neg hnt, if_pos hp]

lemma evaluate_spin_distinct (r0 r1 r2 : String) (b : Int)
    (h1 : r0 ≠ r1) (h2 : r0 ≠ r2) (h3 : r1 ≠ r2) :
    (evaluate_spin [r0, r1, r2] b).1 = 0 := by
  unfold evaluate_spin
  dsimp only [List.getD_cons_zero, List.getD_cons_succ]
  rw [if_neg (by tauto), if_neg (by tauto)]

lemma random_choice_mem (k : Nat) : random_choice SYMBOLS k ∈ SYMBOLS := by
  have h7 : k % 7 < 7 := Nat.mod_lt _ (by norm_num)
  unfold random_choice
  have hlen : SYMBOLS.length = 7 := rfl
  rw [hlen]
  set m := k % 7 with hm
  interval_cases m <;> decide

/-- Agreement of the idealized pair payout with the faithful binary64
computation: whenever `3 * b < 2^53`, the conversion of `b` to a double is
exact and so is the product `b * 1.5`, so Python's `int(b * 1.5)` is
exactly `floor(3 * b / 2)`. -/
lemma int_bet_times_1_5_eq_floor (b : Nat) (hr : 3 * b < 2 ^ 53) :
    int_bet_times_1_5 b = some (3 * b / 2) := by
  have hbound : (2 : Nat) ^ 53 ≤ FLOAT_MAX_BOUND := by norm_num [FLOAT_MAX_BOUND]
  have hb53 : b < 2 ^ 53 := by omega
  have h1 : py_float_of_pos_int b = some b := by
    unfold py_float_of_pos_int round_to_53_bits
    rw [if_pos hb53]
    rw [if_neg (by omega)]
  unfold int_bet_times_1_5
  rw [h1]
  dsimp only
  have h2 : round_half_to_53 (3 * b) = 3 * b := by
    unfold round_half_to_53
    rw [if_pos (Nat.le_of_lt hr)]
  rw [h2]
  rw [if_neg (by omega)]

/-- C1 (amended): on a 3-symbol outcome with a positive bet in the range
`3 * bet < 2^53` — where the source's float product `bet * 1.5` is exact —
`evaluate_spin` follows the priority policy: three equal symbols pay
`bet * PAYOUT_TABLE symbol` with the static multipliers 🍒=5, 🔔=8, 🍋=4,
💎=12, 7️⃣=50, 🍀=10, 🍉=6; exactly two equal (any pairing) pay
`floor(bet * 1.5)`, and on this range the faithful IEEE-754 model of the
source's `int(bet * 1.5)` provably returns that same floor; all distinct
pay 0; in particular three 🍒 at bet 10 pay 50 and 💎💎🍋 at bet 10 pay 15.
Beyond the range the floor clause is false of the program (see the
counterexample theorem for C1). -/
theorem evaluate_spin_payout_policy (r0 r1 r2 : String) (bet : Int)
    (hbet : 0 < bet) (hrange : 3 * bet < 2 ^ 53) :
    (PAYOUT_TABLE "🍒" = 5 ∧ PAYOUT_TABLE "🔔" = 8 ∧ PAYOUT_TABLE "🍋" = 4 ∧
      PAYOUT_TABLE "💎" = 12 ∧ PAYOUT_TABLE "7️⃣" = 50 ∧
      PAYOUT_TABLE "🍀" = 10 ∧ PAYOUT_TABLE "🍉" = 6) ∧
    (r0 = r1 → r1 = r2 →
      (evaluate_spin [r0, r1, r2] bet).1 = bet * PAYOUT_TABLE r0) ∧
    ((r0 = r1 ∨ r0 = r2 ∨ r1 = r2) → ¬(r0 = r1 ∧ r1 = r2) →
      (evaluate_spin [r0, r1, r2] bet).1 = floor_three_halves bet ∧
      int_bet_times_1_5 bet.toNat = some (3 * bet.toNat / 2) ∧
      ((3 * bet.toNat / 2 : Nat) : Int) = floor_three_halves bet) ∧
    (r0 ≠ r1 → r0 ≠ r2 → r1 ≠ r2 → (evaluate_spin [r0, r1, r2] bet).1 = 0) ∧
    (evaluate_spin ["🍒", "🍒", "🍒"] (10 : Int)).1 = 50 ∧
    (evaluate_spin ["💎", "💎", "🍋"] (10 : Int)).1 = 15 := by
  refine ⟨by decide, evaluate_spin_triple r0 r1 r2 bet,
    fun hp hnt => ⟨?_, ?_, ?_⟩, evaluate_spin_distinct r0 r1 r2 bet,
    by decide, by decide⟩
  · rw [evaluate_spin_pair r0 r1 r2 bet hp hnt]
    exact tdiv_three_halves_eq_floor bet hbet
  · apply int_bet_times_1_5_eq_floor
    have hN : (2 : Nat) ^ 53 = 9007199254740992 := by norm_num
    have hZ : (2 : Int) ^ 53 = 9007199254740992 := by norm_num
    rw [hZ] at hrange
    rw [hN]
    omega
  · unfold floor_three_halves
    rw [Int.fdiv_eq_ediv _ (by norm_num)]
    omega

set_option maxRecDepth 8000 in
/-- C1 counterexample: at bet = 2^52 + 1 the program's pair payout — the
source expression `int(bet * 1.5)` under IEEE-754 binary64 semantics,
where the product ties and rounds to even — is 6755399441055746, one more
than floor(bet × 1.5) = 6755399441055745, so the claimed floor formula is
false of the program at this bet; and at a bet of 2^1025 the conversion
raises OverflowError (`none`) rather than returning any floor value. -/
theorem pair_payout_not_floor_at_large_bet :
    int_bet_times_1_5 (2 ^ 52 + 1) = some 6755399441055746 ∧
    floor_three_halves (2 ^ 52 + 1) = 6755399441055745 ∧
    int_bet_times_1_5 (2 ^ 52 + 1)
      ≠ some (floor_three_halves (2 ^ 52 + 1)).toNat ∧
    int_bet_times_1_5 (2 * FLOAT_MAX_BOUND) = none := by
  refine ⟨by decide, by decide, by decide, by decide⟩

/-- Witness for C1 at concrete inputs: three 🍒 and a 💎💎🍋 pair, bet 10,
with the faithful binary64 payout agreeing. -/
theorem evaluate_spin_payout_policy_witness :
    (evaluate_spin ["🍒", "🍒", "🍒"] (10 : Int)).1 = 10 * PAYOUT_TABLE "🍒" ∧
    (evaluate_spin ["💎", "💎", "🍋"] (10 : Int)).1 = floor_three_halves 10 ∧
    int_bet_times_1_5 (10 : Int).toNat = some (3 * (10 : Int).toNat / 2) :=
  ⟨(evaluate_spin_payout_policy "🍒" "🍒" "🍒" 10 (by norm_num)
      (by norm_num)).2.1 rfl rfl,
   ((evaluate_spin_payout_policy "💎" "💎" "🍋" 10 (by norm_num)
      (by norm_num)).2.2.1 (Or.inl rfl) (by decide)).1,
   ((evaluate_spin_payout_policy "💎" "💎" "🍋" 10 (by norm_num)
      (by norm_num)).2.2.1 (Or.inl rfl) (by decide)).2.1⟩

/-- C2: the spin-button handler rejects `bet ≤ 0` and `bet > balance` with
no session-state mutation at all (the whole state, hence balance, history
and last reels, is unchanged and no history entry is created), and the
rejection is idempotent. -/
theorem spin_click_rejects_invalid_bet (s : SessionState) (bet : Int)
    (final : List String) (now : String) (h : bet ≤ 0 ∨ s.balance < bet) :
    spin_click s bet final now = s ∧
    spin_click (spin_click s bet final now) bet final now = s := by
  have h1 : spin_click s bet final now = s := by
    unfold spin_click
    rcases h with h | h
    · rw [if_pos h]
    · by_cases h2 : bet ≤ 0
      · rw [if_pos h2]
      · rw [if_neg h2, if_pos h]
  exact ⟨h1, by rw [h1, h1]⟩

/-- Witness for C2: a bet of 2000 against the fresh balance of 1000. -/
theorem spin_click_rejects_invalid_bet_witness :
    spin_click init_state 2000 ["🍒", "🍒", "🍒"] "2024-01-01 00:00:00"
      = init_state :=
  (spin_click_rejects_invalid_bet init_state 2000 ["🍒", "🍒", "🍒"]
    "2024-01-01 00:00:00" (Or.inr (by decide))).1

/-- C3: an over-balance bet is rejected by `do_spin` before any mutation,
and over every operation sequence from the fresh state (balance 1000) the
balance stays non-negative. -/
theorem balance_never_negative :
    (∀ (s : SessionState) (bet : Int) (final : List String) (now : String),
        s.balance < bet → do_spin s bet final now = s) ∧
    ∀ ops : List Op, 0 ≤ (runOps ops).balance := by
  refine ⟨fun s bet final now h => do_spin_reject s bet final now h,
    fun ops => ?_⟩
  unfold runOps
  exact foldl_balance_nonneg ops init_state (by decide)

/-- Witness for C3: rejection of a 2000-coin bet on the fresh state, and
the invariant on a concrete run. -/
theorem balance_never_negative_witness :
    do_spin init_state 2000 ["🍒", "🍒", "🍒"] "t" = init_state ∧
    0 ≤ (runOps [Op.reset]).balance :=
  ⟨balance_never_negative.1 init_state 2000 ["🍒", "🍒", "🍒"] "t" (by decide),
   balance_never_negative.2 [Op.reset]⟩

/-- C4: an auto-spin run of requested count `n` at fixed bet: when the
starting balance covers `n` bets it produces exactly `n` new history
records and reports `n` completed spins; when the trajectory's balance hits
0 after `k < n` accepted spins the loop stops there with exactly `k` new
records; in every case (any stop flag) at most `n` iterations are
counted. -/
theorem auto_spin_record_counts (bet : Int) (n k : Nat) (s : SessionState)
    (outcomes : Nat → List String) (times : Nat → String) (stop : Nat → Bool)
    (hbet : 1 ≤ bet) :
    ((n : Int) * bet ≤ s.balance →
      (auto_run bet outcomes times (fun _ => false) n s).1.history.length
          = s.history.length + n ∧
      (auto_run bet outcomes times (fun _ => false) n s).2 = n) ∧
    (k < n →
      (∀ j, j < k → bet ≤ (iter_spin bet outcomes times 0 j s).balance) →
      (iter_spin bet outcomes times 0 k s).balance ≤ 0 →
      auto_run bet outcomes times (fun _ => false) n s
          = (iter_spin bet outcomes times 0 k s, k) ∧
      (iter_spin bet outcomes times 0 k s).history.length
          = s.history.length + k) ∧
    (auto_run bet outcomes times stop n s).2 ≤ n := by
  unfold auto_run
  refine ⟨fun hbal => ?_, fun hk hacc hz => ?_, ?_⟩
  · have h := auto_loop_all_accepted bet outcomes times hbet n 0 s 0 hbal
    exact ⟨h.2, by rw [h.1]; omega⟩
  · have h := auto_loop_stops_at bet outcomes times hbet k n 0 s 0 hk hacc hz
    refine ⟨by rw [h]; norm_num, iter_spin_len bet outcomes times k 0 s hacc⟩
  · have h := auto_loop_done_le bet outcomes times stop n 0 s 0
    omega

/-- Witness for C4: five auto-spins at bet 10 from the fresh balance of
1000 with a never-matching outcome stream. -/
theorem auto_spin_record_counts_witness :
    (auto_run 10 (fun _ => ["🍒", "🔔", "🍋"]) (fun _ => "t") (fun _ => false) 5
        init_state).1.history.length = init_state.history.length + 5 ∧
    (auto_run 10 (fun _ => ["🍒", "🔔", "🍋"]) (fun _ => "t") (fun _ => false) 5
        init_state).2 = 5 :=
  (auto_spin_record_counts 10 5 0 init_state (fun _ => ["🍒", "🔔", "🍋"])
    (fun _ => "t") (fun _ => false) (by norm_num)).1 (by decide)

/-- C5: an accepted spin with bet `b` debits `b`, credits the computed win
`w`, leaves the balance at `B - b + w`, and prepends exactly one record
with the timestamp string, the space-joined reels, bet, win, resulting
balance and message. -/
theorem do_spin_accept_effects (s : SessionState) (b : Int)
    (final : List String) (now : String) (hb : 0 < b) (hle : b ≤ s.balance) :
    (do_spin s b final now).balance
        = s.balance - b + (evaluate_spin final b).1 ∧
    (do_spin s b final now).history =
      { timestamp := now
        reels := String.intercalate " " final
        bet := b
        win := (evaluate_spin final b).1
        balance_after := s.balance - b + (evaluate_spin final b).1
        message := (evaluate_spin final b).2 } :: s.history := by
  rw [do_spin_accept s b final now hle (by omega)]
  exact ⟨rfl, rfl⟩

/-- Witness for C5: bet 10 on the fresh state with a no-match outcome. -/
theorem do_spin_accept_effects_witness :
    (do_spin init_state 10 ["🍒", "🔔", "🍋"] "t").balance
        = init_state.balance - 10 + (evaluate_spin ["🍒", "🔔", "🍋"] 10).1 ∧
    (do_spin init_state 10 ["🍒", "🔔", "🍋"] "t").history =
      { timestamp := "t"
        reels := String.intercalate " " ["🍒", "🔔", "🍋"]
        bet := 10
        win := (evaluate_spin ["🍒", "🔔", "🍋"] 10).1
        balance_after := init_state.balance - 10
          + (evaluate_spin ["🍒", "🔔", "🍋"] 10).1
        message := (evaluate_spin ["🍒", "🔔", "🍋"] 10).2 } :: init_state.history :=
  do_spin_accept_effects init_state 10 ["🍒", "🔔", "🍋"] "t" (by norm_num)
    (by decide)

/-- C6: each accepted spin grows the history by exactly one record, the new
record is prepended (the tail is the previous history, so existing records
are untouched and entry 0 is newest), and from any empty-history session
(fresh or just reset) `K` accepted spins leave exactly `K` records. -/
theorem history_append_only (s : SessionState) (b : Int) (final : List String)
    (now : String) (K : Nat) (bet : Int) (outcomes : Nat → List String)
    (times : Nat → String) (s0 : SessionState) :
    (b ≤ s.balance →
      (do_spin s b final now).history.length = s.history.length + 1 ∧
      (do_spin s b final now).history.tail = s.history) ∧
    (s0.history = [] →
      (∀ j, j < K → bet ≤ (iter_spin bet outcomes times 0 j s0).balance) →
      (iter_spin bet outcomes times 0 K s0).history.length = K) := by
  refine ⟨fun h => do_spin_history_of_accept s b final now h,
    fun h0 hacc => ?_⟩
  rw [iter_spin_len bet outcomes times K 0 s0 hacc, h0]
  simp

/-- Witness for C6: one accepted spin on the fresh state. -/
theorem history_append_only_witness :
    (do_spin init_state 10 ["🍒", "🔔", "🍋"] "t").history.length
        = init_state.history.length + 1 ∧
    (do_spin init_state 10 ["🍒", "🔔", "🍋"] "t").history.tail
        = init_state.history :=
  (history_append_only init_state 10 ["🍒", "🔔", "🍋"] "t" 0 10
    (fun _ => ["🍒", "🔔", "🍋"]) (fun _ => "t") init_state).1 (by decide)

/-- C7: the reset button sets the balance to the initial constant 1000,
empties the history and clears the last reel outcome to the placeholder,
from any prior state and with no error condition (total function). -/
theorem reset_click_restores (s : SessionState) :
    (reset_click s).balance = START_BALANCE ∧
    (reset_click s).balance = 1000 ∧
    (reset_click s).history = [] ∧
    (reset_click s).last_reels = ["-", "-", "-"] :=
  ⟨rfl, rfl, rfl, rfl⟩

/-- C8: `spin_once` consumes the external randomness and always returns
exactly 3 symbols, each an element of the fixed 7-symbol set, with no error
condition; the uniformity and independence of the positions live in the
external `random` source, modelled by the arbitrary index stream `r`. -/
theorem spin_once_wellformed (r : Nat → Nat) :
    (spin_once r).length = 3 ∧ ∀ x ∈ spin_once r, x ∈ SYMBOLS := by
  refine ⟨rfl, fun x hx => ?_⟩
  unfold spin_once at hx
  simp only [List.mem_cons, List.not_mem_nil, or_false] at hx
  rcases hx with rfl | rfl | rfl
  · exact random_choice_mem (r 0)
  · exact random_choice_mem (r 1)
  · exact random_choice_mem (r 2)

/-- C9: in an auto-spin run whose state has `0 < balance < bet`, each
iteration performs no spin (the state, hence balance and history, is
unchanged) yet still increments `spins_done`; the loop never hits the
`balance <= 0` break and so runs all `n` requested iterations, reporting
`n` completed spins with the state untouched. -/
theorem auto_spin_insufficient_bet (bet : Int) (n : Nat) (s : SessionState)
    (outcomes : Nat → List String) (times : Nat → String) (i : Nat)
    (hpos : 0 < s.balance) (hlt : s.balance < bet) :
    do_spin s bet (outcomes i) (times i) = s ∧
    auto_run bet outcomes times (fun _ => false) n s = (s, n) := by
  refine ⟨do_spin_reject s bet (outcomes i) (times i) hlt, ?_⟩
  unfold auto_run
  rw [auto_loop_reject_all bet outcomes times n 0 s 0 hpos hlt]
  norm_num

/-- Witness for C9: balance 5, bet 10, three requested iterations. -/
theorem auto_spin_insufficient_bet_witness :
    auto_run 10 (fun _ => ["🍒", "🔔", "🍋"]) (fun _ => "t") (fun _ => false) 3
        { init_state with balance := 5 }
      = ({ init_state with balance := 5 }, 3) :=
  (auto_spin_insufficient_bet 10 3 { init_state with balance := 5 }
    (fun _ => ["🍒", "🔔", "🍋"]) (fun _ => "t") 0 (by decide) (by decide)).2

/-- C10 counterexample: the reset handler does not restore the message to
its initial value — on the fresh state, reset writes the reset notice,
which differs from the initial welcome message. -/
theorem reset_message_not_initial :
    (reset_click init_state).message ≠ init_state.message := by decide

/-- C10 (amended): the reset handler leaves `last_bet` unchanged (and an
accepted spin had set it to that spin's bet; its initial value is 0), while
balance, history and the last reel outcome are restored to their initial
values and the message is set to the fixed reset notice (not the initial
welcome message). -/
theorem reset_click_keeps_last_bet (s : SessionState) :
    (reset_click s).last_bet = s.last_bet ∧
    init_state.last_bet = 0 ∧
    (reset_click s).balance = START_BALANCE ∧
    (reset_click s).history = [] ∧
    (reset_click s).last_reels = init_state.last_reels ∧
    (reset_click s).message = "Saldo direset ke 1000 coins." ∧
    ∀ (b : Int) (f : List String) (now : String),
      b ≤ s.balance → (do_spin s b f now).last_bet = b := by
  refine ⟨rfl, rfl, rfl, rfl, rfl, rfl, fun b f now h => ?_⟩
  unfold do_spin
  rw [if_neg (not_lt.mpr h)]

/-- Witness for C10 (amended): an accepted bet of 10 on the fresh state
sets `last_bet` to 10. -/
theorem reset_click_keeps_last_bet_witness :
    (do_spin init_state 10 ["🍒", "🔔", "🍋"] "t").last_bet = 10 :=
  (reset_click_keeps_last_bet init_state).2.2.2.2.2.2 10 ["🍒", "🔔", "🍋"] "t"
    (by decide)
